import Mathlib

/-!
Verification of the AgenticVerifier AutoPresent pipeline.

The definitions below are shallow embeddings of the Python sources
`src/runners/autopresent.py`, `src/evaluators/autopresent/evaluate.py` and
`src/evaluators/autopresent/gather.py`.  Python floats are modelled as
rationals, the filesystem as explicit data, and a raised exception as the
`none` / `Except.error` case of the corresponding Lean function.
-/

namespace AgenticVerifier

/-- The four reference-based metrics read from `ref_based.txt`
(`round_ref_eval` in `gather_results`, gather.py line 51). -/
structure RefBasedEval where
  matchScore : ℚ
  textScore : ℚ
  colorScore : ℚ
  positionScore : ℚ
  deriving DecidableEq, Repr

/-- The four reference-free metrics read from `ref_free.json`
(`round_ref_free_eval` in `gather_results`, gather.py line 52). -/
structure RefFreeEval where
  text : ℚ
  image : ℚ
  layout : ℚ
  color : ℚ
  deriving DecidableEq, Repr

/-- The `* 20` scaling applied to each raw reference-free `score` field when
it is read (gather.py lines 71-74). -/
def scaleRefFree (raw : RefFreeEval) : RefFreeEval :=
  ⟨raw.text * 20, raw.image * 20, raw.layout * 20, raw.color * 20⟩

/-- Composite score of one round: the sum of the four reference-based metrics
and the four (already scaled) reference-free metrics, divided by 8
(gather.py lines 77-80; the same formula is reused on the averaged metrics
at lines 145-148). -/
def roundScore (re : RefBasedEval) (rf : RefFreeEval) : ℚ :=
  (re.matchScore + re.textScore + re.colorScore + re.positionScore +
   rf.text + rf.image + rf.layout + rf.color) / 8

/-- On-disk state of one round directory of one item: whether the directory
exists, and the parsed contents of `ref_based.txt` and `ref_free.json` when
the respective file exists (`none` = file absent). -/
structure Round where
  dirExists : Bool
  ref_based : Option RefBasedEval
  ref_free : Option RefFreeEval
  deriving DecidableEq

/-- gather.py lines 42-49: a round yields data only when its directory exists
and both report files exist; the reference-free scores are scaled on read. -/
def roundData (rd : Round) : Option (RefBasedEval × RefFreeEval) :=
  if rd.dirExists then
    match rd.ref_based, rd.ref_free with
    | some re, some raw => some (re, scaleRefFree raw)
    | _, _ => none
  else none

/-- The best-round incumbent of the scan (gather.py lines 34-37). -/
structure BestState where
  best_round_score : ℚ
  best_round_ref_eval : Option RefBasedEval
  best_round_ref_free_eval : Option RefFreeEval
  best_round_num : Option Nat
  deriving DecidableEq

/-- Initial incumbent: score `-1`, nothing selected (gather.py lines 34-37). -/
def initBest : BestState := ⟨-1, none, none, none⟩

/-- Body of the round loop (gather.py lines 40-87): skip the round unless its
data is complete, otherwise replace the incumbent exactly when the round's
composite score is strictly greater. -/
def scanRound (st : BestState) (round_num : Nat) (rd : Round) : BestState :=
  match roundData rd with
  | some (re, rf) =>
    let s := roundScore re rf
    if st.best_round_score < s then ⟨s, some re, some rf, some round_num⟩ else st
  | none => st

/-- The scanned round identifiers `range(1, 11)` (gather.py line 40). -/
def roundRange : List Nat := List.range' 1 10

/-- The whole best-round scan for one item, over rounds 1..10 in ascending
order (gather.py lines 33-87). -/
def scanAll (dir : Nat → Round) : BestState :=
  roundRange.foldl (fun st n => scanRound st n (dir n)) initBest

/-- The `(round, composite score)` pairs of the complete rounds of an item,
in scan order. -/
def completeList (dir : Nat → Round) : List (Nat × ℚ) :=
  roundRange.filterMap fun n =>
    (roundData (dir n)).map fun p => (n, roundScore p.1 p.2)

/-- The strict-greater incumbent update of the scan, restricted to the
`(round, score)` pairs it compares. -/
def selectBest : List (Nat × ℚ) → ℚ → Option Nat → Option Nat
  | [], _, best => best
  | p :: rest, b, best =>
    if b < p.2 then selectBest rest p.2 (some p.1) else selectBest rest b best

/-- Running totals of `gather_results` (gather.py lines 16-19). -/
structure AggState where
  ref_eval_result : RefBasedEval
  ref_free_eval_result : RefFreeEval
  fail_num : Nat
  total_num : Nat
  deriving DecidableEq

/-- gather.py lines 16-19: all sums and counters start at zero. -/
def initAgg : AggState := ⟨⟨0, 0, 0, 0⟩, ⟨0, 0, 0, 0⟩, 0, 0⟩

/-- Field-wise sum of reference-based metric records (gather.py lines 94-95). -/
def addRef (a b : RefBasedEval) : RefBasedEval :=
  ⟨a.matchScore + b.matchScore, a.textScore + b.textScore,
   a.colorScore + b.colorScore, a.positionScore + b.positionScore⟩

/-- Field-wise sum of reference-free metric records (gather.py lines 96-97). -/
def addFree (a b : RefFreeEval) : RefFreeEval :=
  ⟨a.text + b.text, a.image + b.image, a.layout + b.layout, a.color + b.color⟩

/-- gather.py lines 88-128: fold one item into the totals.  If the scan found
a best round its metrics are added to the sums; otherwise only the failure
counter moves.  The total counter is incremented in both cases. -/
def processItem (st : AggState) (dir : Nat → Round) : AggState :=
  let b := scanAll dir
  match b.best_round_num with
  | some _ =>
    { st with
      ref_eval_result := addRef st.ref_eval_result (b.best_round_ref_eval.getD ⟨0, 0, 0, 0⟩)
      ref_free_eval_result :=
        addFree st.ref_free_eval_result (b.best_round_ref_free_eval.getD ⟨0, 0, 0, 0⟩)
      total_num := st.total_num + 1 }
  | none =>
    { st with fail_num := st.fail_num + 1, total_num := st.total_num + 1 }

/-- The whole aggregation loop over the items of the run (gather.py
lines 21-128), each item abstracted to its round directories. -/
def aggregate (items : List (Nat → Round)) : AggState := items.foldl processItem initAgg

/-- gather.py lines 131-135: per-metric averaging, guarded by
`total_num > 0`. -/
def finalize_averages (st : AggState) : RefBasedEval × RefFreeEval :=
  if 0 < st.total_num then
    (⟨st.ref_eval_result.matchScore / st.total_num,
      st.ref_eval_result.textScore / st.total_num,
      st.ref_eval_result.colorScore / st.total_num,
      st.ref_eval_result.positionScore / st.total_num⟩,
     ⟨st.ref_free_eval_result.text / st.total_num,
      st.ref_free_eval_result.image / st.total_num,
      st.ref_free_eval_result.layout / st.total_num,
      st.ref_free_eval_result.color / st.total_num⟩)
  else (st.ref_eval_result, st.ref_free_eval_result)

/-- Python division, which raises `ZeroDivisionError` on a zero divisor. -/
def pyDiv (a b : ℚ) : Except String ℚ :=
  if b = 0 then .error "ZeroDivisionError" else .ok (a / b)

/-- gather.py lines 131-151: the guarded averaging, then the unguarded
success-rate division `(total_num - fail_num) / total_num` of line 139, then
the overall score (mean of the 8 averaged metrics). -/
def gather_finalize (st : AggState) : Except String (RefBasedEval × RefFreeEval × ℚ × ℚ) :=
  let avgs := finalize_averages st
  match pyDiv ((st.total_num : ℚ) - (st.fail_num : ℚ)) (st.total_num : ℚ) with
  | .error e => .error e
  | .ok rate => .ok (avgs.1, avgs.2, rate, roundScore avgs.1 avgs.2)

/-- `dropPfx pfx s` removes the prefix `pfx` from `s`, or returns `none` when
`pfx` is not a prefix of `s`. -/
def dropPfx : List Char → List Char → Option (List Char)
  | [], s => some s
  | _ :: _, [] => none
  | a :: as, b :: bs => if a = b then dropPfx as bs else none

/-- Fuel-indexed splitter on character lists: leftmost, non-overlapping
occurrences of the separator, as in Python's `str.split(sep)`. -/
def splitCh : Nat → List Char → List Char → List (List Char)
  | 0, _, s => [s]
  | _ + 1, _, [] => [[]]
  | fuel + 1, sep, c :: rest =>
    match dropPfx sep (c :: rest) with
    | some rest' => [] :: splitCh fuel sep rest'
    | none =>
      match splitCh fuel sep rest with
      | [] => [[c]]
      | h :: t => (c :: h) :: t

/-- Python's `s.split(sep)` for a nonempty separator. -/
def pySplit (sep s : String) : List String :=
  (splitCh s.data.length sep.data s.data).map fun l => ⟨l⟩

/-- Python substring containment `pat in s` (nonempty `pat`): the split on
`pat` has more than one part exactly when `pat` occurs in `s`. -/
def containsSub (pat s : String) : Bool := (pySplit pat s).length != 1

/-- `result.split(': ')[1]` (gather.py lines 60-66), with the `IndexError`
on a line without `": "` made explicit. -/
def splitVal (line : String) : Option String := (pySplit ": " line).get? 1

/-- One line of the `ref_based.txt` loop (gather.py lines 58-66): the
`if/elif` ladder keyed on substring containment.  `toFloat` stands for
Python's `float` builtin; `none` models a raised exception. -/
def parseRefLine (toFloat : String → Option ℚ) (acc : RefBasedEval) (line : String) :
    Option RefBasedEval :=
  if containsSub "match" line then
    ((splitVal line).bind toFloat).map fun v => { acc with matchScore := v }
  else if containsSub "text" line then
    ((splitVal line).bind toFloat).map fun v => { acc with textScore := v }
  else if containsSub "color" line then
    ((splitVal line).bind toFloat).map fun v => { acc with colorScore := v }
  else if containsSub "position" line then
    ((splitVal line).bind toFloat).map fun v => { acc with positionScore := v }
  else some acc

/-- The whole `ref_based.txt` parse (gather.py lines 54-66): fold the line
parser over the lines of the file, starting from the zero record. -/
def parseRefBased (toFloat : String → Option ℚ) (lines : List String) :
    Option RefBasedEval :=
  lines.foldlM (parseRefLine toFloat) ⟨0, 0, 0, 0⟩

/-- The fixed subprocess ceiling of `run_autopresent_task`
(autopresent.py line 125, `timeout=3600`). -/
def TIMEOUT_SECONDS : Nat := 3600

/-- What `subprocess.run(cmd, check=True, capture_output=False, timeout=3600)`
can be observed to do by its caller. -/
inductive ProcEvent where
  | completed (exitCode : Int) (errText : String)
  | timedOut
  | raised (msg : String)
  deriving DecidableEq

/-- `subprocess.run` with a timeout: the child's exit is reported only when it
finishes within the ceiling; past the ceiling the child is killed and
`TimeoutExpired` is raised. -/
def runWithTimeout (finishTime : Nat) (exitCode : Int) (errText : String) : ProcEvent :=
  if TIMEOUT_SECONDS < finishTime then .timedOut else .completed exitCode errText

/-- Outcome taxonomy of a dispatched task. -/
inductive TaskOutcome where
  | success
  | nonZeroExit (err : String)
  | timeout
  | exception (err : String)
  deriving DecidableEq

/-- The `try`/`except` ladder of `run_autopresent_task` (autopresent.py
lines 123-139): exit code zero is a success, `CalledProcessError` (a non-zero
exit, since `check=True`) keeps the error text, `TimeoutExpired` is a timeout,
and any other exception is caught as well. -/
def classifyOutcome : ProcEvent → TaskOutcome
  | .completed 0 _ => .success
  | .completed _ e => .nonZeroExit e
  | .timedOut => .timeout
  | .raised e => .exception e

/-- The `(task_name, success, error_msg)` triple a `TaskOutcome` is reported
as (autopresent.py lines 127, 131, 135, 139). -/
def outcomeTriple (task_name : String) : TaskOutcome → String × Bool × String
  | .success => (task_name, true, "")
  | .nonZeroExit e => (task_name, false, e)
  | .timeout => (task_name, false, "Timeout")
  | .exception e => (task_name, false, e)

/-- Return value of `run_autopresent_task` (autopresent.py lines 123-139):
every branch returns a triple, no exception propagates to the caller. -/
def run_autopresent_task (task_name : String) (ev : ProcEvent) : String × Bool × String :=
  match ev with
  | .completed 0 _ => (task_name, true, "")
  | .completed _ e => (task_name, false, e)
  | .timedOut => (task_name, false, "Timeout")
  | .raised e => (task_name, false, e)

/-- What `future.result()` yields for one completed future in
`run_tasks_parallel`: the task's triple, or an exception raised by the future
itself (autopresent.py lines 169-190). -/
inductive FutureResult where
  | value (r : String × Bool × String)
  | errored (msg : String)
  deriving DecidableEq

/-- The counters accumulated by the scheduler (autopresent.py
lines 153-155 and 259-261). -/
structure RunCounts where
  successful_tasks : Nat
  failed_tasks : Nat
  failed_task_details : List (String × String)
  deriving DecidableEq

/-- Processing of one completed task (autopresent.py lines 171-190 for the
parallel loop; lines 265-274 are the same branches without the exception
case): a success bumps the success counter, anything else bumps the failure
counter and records the detail. -/
def countOne (acc : RunCounts) : FutureResult → RunCounts
  | .value (_, true, _) =>
    { acc with successful_tasks := acc.successful_tasks + 1 }
  | .value (n, false, e) =>
    { acc with failed_tasks := acc.failed_tasks + 1,
               failed_task_details := acc.failed_task_details ++ [(n, e)] }
  | .errored e =>
    { acc with failed_tasks := acc.failed_tasks + 1,
               failed_task_details := acc.failed_task_details ++ [("", e)] }

/-- `run_tasks_parallel` (autopresent.py lines 141-192), abstracted over the
completion order of the futures: fold the per-task counting over the results
as they complete. -/
def run_tasks_parallel (completions : List FutureResult) : RunCounts :=
  completions.foldl countOne ⟨0, 0, []⟩

/-- The sequential loop of `main` (autopresent.py lines 256-274): the same
counting, over task results in submission order; `run_autopresent_task`
returns a triple, it never raises. -/
def run_tasks_sequential (rs : List (String × Bool × String)) : RunCounts :=
  rs.foldl (fun acc r => countOne acc (.value r)) ⟨0, 0, []⟩

/-- evaluate.py line 51: the path the evaluation dispatcher hands to the
reference-free scorer as its report destination. -/
def dispatcher_ref_free_path (round_dir : String) : String := round_dir ++ "/ref_free.txt"

/-- gather.py line 47: the path the round aggregator requires (and reads) for
the reference-free report of a round. -/
def aggregator_ref_free_path (round_dir : String) : String := round_dir ++ "/ref_free.json"

/-- evaluate.py line 37: the reference-based report destination. -/
def dispatcher_ref_based_path (round_dir : String) : String := round_dir ++ "/ref_based.txt"

/-- gather.py line 46: the reference-based report the aggregator reads. -/
def aggregator_ref_based_path (round_dir : String) : String := round_dir ++ "/ref_based.txt"

/-- autopresent.py line 45: the directory name resolved when a specific task
id is given (`base_path / task_name / f"slides_{task_id}"`). -/
def singleTaskDirName (task_id : String) : String := "slides_" ++ task_id

/-- Prefix test on character lists (the meaning of the glob `slide_*`). -/
def isPfx : List Char → List Char → Bool
  | [], _ => true
  | _ :: _, [] => false
  | a :: as, b :: bs => a = b && isPfx as bs

/-- autopresent.py line 51: the enumeration pattern `slide_*` used to discover
items under a category. -/
def matchesItemConvention (name : String) : Bool := isPfx "slide_".data name.data

/-! ## Helper lemmas -/

/-- An incumbent at least as large as every candidate survives the scan. -/
lemma selectBest_of_le (l : List (Nat × ℚ)) (b : ℚ) (best : Option Nat)
    (h : ∀ p ∈ l, p.2 ≤ b) : selectBest l b best = best := by
  induction l generalizing b best with
  | nil => rfl
  | cons q rest ih =>
    have hq : q.2 ≤ b := h q (List.mem_cons_self q rest)
    simp only [selectBest]
    rw [if_neg (not_lt.mpr hq)]
    exact ih b best fun p hp => h p (List.mem_cons_of_mem q hp)

/-- The strict-greater incumbent update over a list of pairs with strictly
increasing first components selects the first pair attaining the maximum
second component, as soon as some candidate beats the initial incumbent. -/
lemma selectBest_spec (l : List (Nat × ℚ)) (b : ℚ) (best : Option Nat)
    (hpw : List.Pairwise (fun p q : Nat × ℚ => p.1 < q.1) l)
    (hex : ∃ p ∈ l, b < p.2) :
    ∃ n s, selectBest l b best = some n ∧ (n, s) ∈ l ∧ b < s ∧
      (∀ p ∈ l, p.2 ≤ s) ∧ (∀ p ∈ l, p.2 = s → n ≤ p.1) := by
  induction l generalizing b best with
  | nil => simp at hex
  | cons q rest ih =>
    obtain ⟨m, t⟩ := q
    obtain ⟨hq, hrest⟩ := List.pairwise_cons.mp hpw
    by_cases hbq : b < t
    · by_cases hex2 : ∃ p ∈ rest, t < p.2
      · obtain ⟨n, s, heq, hmem, hts, hmax, htie⟩ := ih t (some m) hrest hex2
        refine ⟨n, s, ?_, List.mem_cons_of_mem _ hmem, lt_trans hbq hts, ?_, ?_⟩
        · simp only [selectBest]; rw [if_pos hbq]; exact heq
        · intro p hp
          rcases List.mem_cons.mp hp with h1 | h2
          · rw [h1]; exact le_of_lt hts
          · exact hmax p h2
        · intro p hp hps
          rcases List.mem_cons.mp hp with h1 | h2
          · exfalso; rw [h1] at hps; exact (ne_of_lt hts) hps
          · exact htie p h2 hps
      · push_neg at hex2
        refine ⟨m, t, ?_, List.mem_cons_self _ _, hbq, ?_, ?_⟩
        · simp only [selectBest]; rw [if_pos hbq]
          exact selectBest_of_le rest t (some m) hex2
        · intro p hp
          rcases List.mem_cons.mp hp with h1 | h2
          · rw [h1]
          · exact hex2 p h2
        · intro p hp _
          rcases List.mem_cons.mp hp with h1 | h2
          · rw [h1]
          · exact le_of_lt (hq p h2)
    · have hex' : ∃ p ∈ rest, b < p.2 := by
        obtain ⟨p, hp, hbp⟩ := hex
        rcases List.mem_cons.mp hp with h1 | h2
        · exfalso; rw [h1] at hbp; exact hbq hbp
        · exact ⟨p, h2, hbp⟩
      obtain ⟨n, s, heq, hmem, hbs, hmax, htie⟩ := ih b best hrest hex'
      have htb : t ≤ b := not_lt.mp hbq
      refine ⟨n, s, ?_, List.mem_cons_of_mem _ hmem, hbs, ?_, ?_⟩
      · simp only [selectBest]; rw [if_neg hbq]; exact heq
      · intro p hp
        rcases List.mem_cons.mp hp with h1 | h2
        · rw [h1]; exact le_trans htb (le_of_lt hbs)
        · exact hmax p h2
      · intro p hp hps
        rcases List.mem_cons.mp hp with h1 | h2
        · exfalso; rw [h1] at hps
          exact absurd hbs (not_lt.mpr (hps ▸ htb))
        · exact htie p h2 hps

/-- The selected round of the best-round fold is exactly what the
strict-greater update computes on the `(round, score)` pairs of the
complete rounds. -/
lemma scan_foldl_num (dir : Nat → Round) (l : List Nat) (st : BestState) :
    (l.foldl (fun st n => scanRound st n (dir n)) st).best_round_num
      = selectBest
          (l.filterMap fun n => (roundData (dir n)).map fun p => (n, roundScore p.1 p.2))
          st.best_round_score st.best_round_num := by
  induction l generalizing st with
  | nil => rfl
  | cons n rest ih =>
    rw [List.foldl_cons]
    cases hD : roundData (dir n) with
    | none =>
      simp only [List.filterMap_cons, hD, Option.map_none']
      have hstep : scanRound st n (dir n) = st := by simp [scanRound, hD]
      rw [hstep]
      exact ih st
    | some p =>
      simp only [List.filterMap_cons, hD, Option.map_some']
      simp only [scanRound, hD]
      by_cases hlt : st.best_round_score < roundScore p.1 p.2
      · rw [if_pos hlt]
        simp only [selectBest]
        rw [if_pos hlt]
        exact ih ⟨roundScore p.1 p.2, some p.1, some p.2, some n⟩
      · rw [if_neg hlt]
        simp only [selectBest]
        rw [if_neg hlt]
        exact ih st

/-- The selected round of the whole scan, in terms of `completeList`. -/
lemma scanAll_num (dir : Nat → Round) :
    (scanAll dir).best_round_num = selectBest (completeList dir) (-1) none :=
  scan_foldl_num dir roundRange initBest

/-- The round identifiers of the complete rounds are strictly increasing. -/
lemma completeList_pairwise (dir : Nat → Round) :
    List.Pairwise (fun p q : Nat × ℚ => p.1 < q.1) (completeList dir) := by
  refine List.Pairwise.filterMap _ ?_ (List.pairwise_lt_range' 1 10)
  intro a b hab c hc d hd
  rcases Option.map_eq_some'.mp (Option.mem_def.mp hc) with ⟨p, _, hp⟩
  rcases Option.map_eq_some'.mp (Option.mem_def.mp hd) with ⟨q, _, hq⟩
  rw [← hp, ← hq]
  exact hab

/-- Each counted task moves exactly one of the two counters by one. -/
lemma counts_foldl (l : List FutureResult) (acc : RunCounts) :
    (l.foldl countOne acc).successful_tasks + (l.foldl countOne acc).failed_tasks
      = acc.successful_tasks + acc.failed_tasks + l.length := by
  induction l generalizing acc with
  | nil => simp
  | cons x xs ih =>
    rw [List.foldl_cons, ih]
    rcases x with ⟨⟨n, b, e⟩⟩ | e
    · cases b <;> simp [countOne] <;> omega
    · simp [countOne]; omega

/-- A round whose directory lacks one of the two report files yields no data. -/
lemma roundData_none_of_incomplete (rd : Round)
    (h : rd.ref_based.isSome ≠ rd.ref_free.isSome) : roundData rd = none := by
  obtain ⟨de, rb, rf⟩ := rd
  cases rb <;> cases rf <;> simp_all [roundData]

/-! ## Concrete instances used by witnesses -/

/-- A complete round whose four reference-based metrics all equal `v` and
whose four raw reference-free scores all equal `w`. -/
def mkRound (v w : ℚ) : Round := ⟨true, some ⟨v, v, v, v⟩, some ⟨w, w, w, w⟩⟩

/-- Rounds 1, 2, 3 complete, with composite scores 70, 85, 85. -/
def exDir : Nat → Round := fun n =>
  if n = 1 then mkRound 70 (7 / 2)
  else if n = 2 then mkRound 85 (17 / 4)
  else if n = 3 then mkRound 85 (17 / 4)
  else ⟨false, none, none⟩

/-- An item whose only round directory holds the reference-based report but
not the reference-free one. -/
def exDirIncomplete : Nat → Round := fun n =>
  if n = 2 then ⟨true, some ⟨7, 8, 9, 10⟩, none⟩ else ⟨false, none, none⟩

/-- An item with no round directory at all. -/
def emptyDir : Nat → Round := fun _ => ⟨false, none, none⟩

/-- Running totals after two items, one of them failed. -/
def exAgg : AggState := ⟨⟨4, 6, 8, 10⟩, ⟨12, 14, 16, 18⟩, 1, 2⟩

lemma completeList_exDir : completeList exDir = [(1, 70), (2, 85), (3, 85)] := by
  norm_num [completeList, roundRange, List.range', exDir, mkRound, roundData,
    scaleRefFree, roundScore, List.filterMap]

lemma scanAll_exDir : (scanAll exDir).best_round_num = some 2 := by
  rw [scanAll_num, completeList_exDir]
  norm_num [selectBest]

/-! ## Claim theorems -/

/-- C1: the evaluation dispatcher writes the reference-free report to
`ref_free.txt` in the round directory, while the round aggregator requires
and reads `ref_free.json` there: the two filenames differ, so the claimed
equality of the written and read filenames fails (the reference-based
filenames, by contrast, agree). -/
theorem ref_free_filename_mismatch :
    dispatcher_ref_free_path "output/autopresent/t/art_photos/slide_1/1"
      ≠ aggregator_ref_free_path "output/autopresent/t/art_photos/slide_1/1" ∧
    dispatcher_ref_based_path "output/autopresent/t/art_photos/slide_1/1"
      = aggregator_ref_based_path "output/autopresent/t/art_photos/slide_1/1" :=
  ⟨by decide, rfl⟩

/-- C2: scanning the complete rounds 1..10 in ascending order, the selected
best round is a complete round whose composite score is maximal, and on ties
the lowest round identifier wins, because a later round replaces the
incumbent only on a strictly greater score.  The nonnegativity hypothesis
reflects the 0-100 normalization of all metrics. -/
theorem best_round_is_first_max (dir : Nat → Round)
    (h1 : completeList dir ≠ [])
    (h2 : ∀ p ∈ completeList dir, (0 : ℚ) ≤ p.2) :
    ∃ n s, (scanAll dir).best_round_num = some n ∧ (n, s) ∈ completeList dir ∧
      (∀ p ∈ completeList dir, p.2 ≤ s) ∧
      (∀ p ∈ completeList dir, p.2 = s → n ≤ p.1) := by
  obtain ⟨p, hp⟩ := List.exists_mem_of_ne_nil _ h1
  have hex : ∃ p ∈ completeList dir, (-1 : ℚ) < p.2 :=
    ⟨p, hp, lt_of_lt_of_le (by norm_num) (h2 p hp)⟩
  obtain ⟨n, s, heq, hmem, _, hmax, htie⟩ :=
    selectBest_spec (completeList dir) (-1) none (completeList_pairwise dir) hex
  exact ⟨n, s, by rw [scanAll_num dir]; exact heq, hmem, hmax, htie⟩

/-- Witness for C2, on composite scores `[70, 85, 85]` for rounds
`[1, 2, 3]`: the selected best round is round 2, not round 3. -/
theorem best_round_is_first_max_witness :
    (completeList exDir ≠ [] ∧ ∀ p ∈ completeList exDir, (0 : ℚ) ≤ p.2) ∧
    (∃ n s, (scanAll exDir).best_round_num = some n ∧ (n, s) ∈ completeList exDir ∧
      (∀ p ∈ completeList exDir, p.2 ≤ s) ∧
      (∀ p ∈ completeList exDir, p.2 = s → n ≤ p.1)) ∧
    (scanAll exDir).best_round_num = some 2 := by
  have h1 : completeList exDir ≠ [] := by rw [completeList_exDir]; decide
  have h2 : ∀ p ∈ completeList exDir, (0 : ℚ) ≤ p.2 := by
    rw [completeList_exDir]; decide
  exact ⟨⟨h1, h2⟩, best_round_is_first_max exDir h1 h2, scanAll_exDir⟩

/-- C3: a round with exactly one of the two report files present is excluded
from scoring entirely: the whole best-round scan computes the same result as
if that round were absent (in particular it is never zero-filled or
partially scored). -/
theorem incomplete_round_excluded (dir : Nat → Round) (r : Nat)
    (h : (dir r).ref_based.isSome ≠ (dir r).ref_free.isSome) :
    scanAll dir = scanAll fun n => if n = r then ⟨false, none, none⟩ else dir n := by
  unfold scanAll
  apply List.foldl_ext
  intro st n _
  show scanRound st n (dir n)
    = scanRound st n (if n = r then ⟨false, none, none⟩ else dir n)
  by_cases hr : n = r
  · subst hr
    rw [if_pos rfl]
    rw [show scanRound st n (dir n) = st from by
      simp [scanRound, roundData_none_of_incomplete _ h]]
    simp [scanRound, roundData]
  · rw [if_neg hr]

/-- Witness for C3: an item whose round 2 has only the reference-based
report scans exactly like an item with no rounds at all. -/
theorem incomplete_round_excluded_witness :
    ((exDirIncomplete 2).ref_based.isSome ≠ (exDirIncomplete 2).ref_free.isSome) ∧
    scanAll exDirIncomplete
      = scanAll fun n => if n = 2 then ⟨false, none, none⟩ else exDirIncomplete n :=
  ⟨by decide, incomplete_round_excluded exDirIncomplete 2 (by decide)⟩

/-- C4: an item with zero complete rounds leaves all 8 running metric sums
unchanged and increments the failure counter by exactly one (and the total
counter by one, with no fallback path); the total counter counts every item,
failed ones included; and the final per-metric averages divide each sum by
that total. -/
theorem failed_item_zero_contribution :
    (∀ (st : AggState) (dir : Nat → Round), (scanAll dir).best_round_num = none →
      processItem st dir
        = { st with fail_num := st.fail_num + 1, total_num := st.total_num + 1 }) ∧
    (∀ items : List (Nat → Round), (aggregate items).total_num = items.length) ∧
    (∀ st : AggState, 0 < st.total_num →
      finalize_averages st
        = (⟨st.ref_eval_result.matchScore / st.total_num,
            st.ref_eval_result.textScore / st.total_num,
            st.ref_eval_result.colorScore / st.total_num,
            st.ref_eval_result.positionScore / st.total_num⟩,
           ⟨st.ref_free_eval_result.text / st.total_num,
            st.ref_free_eval_result.image / st.total_num,
            st.ref_free_eval_result.layout / st.total_num,
            st.ref_free_eval_result.color / st.total_num⟩)) := by
  refine ⟨?_, ?_, ?_⟩
  · intro st dir h
    simp [processItem, h]
  · intro items
    have key : ∀ (l : List (Nat → Round)) (st : AggState),
        (l.foldl processItem st).total_num = st.total_num + l.length := by
      intro l
      induction l with
      | nil => intro st; simp
      | cons d rest ih =>
        intro st
        rw [List.foldl_cons, ih]
        have hstep : (processItem st d).total_num = st.total_num + 1 := by
          simp only [processItem]
          cases (scanAll d).best_round_num <;> rfl
        rw [hstep]
        simp only [List.length_cons]
        omega
    simpa [aggregate, initAgg] using key items initAgg
  · intro st h
    unfold finalize_averages
    rw [if_pos h]

/-- Witness for C4: the empty item bumps only the counters, and averaging a
two-item run divides each sum by 2. -/
theorem failed_item_zero_contribution_witness :
    (scanAll emptyDir).best_round_num = none ∧
    processItem initAgg emptyDir
      = { initAgg with fail_num := initAgg.fail_num + 1,
                       total_num := initAgg.total_num + 1 } ∧
    (aggregate [emptyDir]).total_num = [emptyDir].length ∧
    0 < exAgg.total_num ∧
    finalize_averages exAgg
      = (⟨exAgg.ref_eval_result.matchScore / exAgg.total_num,
          exAgg.ref_eval_result.textScore / exAgg.total_num,
          exAgg.ref_eval_result.colorScore / exAgg.total_num,
          exAgg.ref_eval_result.positionScore / exAgg.total_num⟩,
         ⟨exAgg.ref_free_eval_result.text / exAgg.total_num,
          exAgg.ref_free_eval_result.image / exAgg.total_num,
          exAgg.ref_free_eval_result.layout / exAgg.total_num,
          exAgg.ref_free_eval_result.color / exAgg.total_num⟩) :=
  ⟨rfl,
   failed_item_zero_contribution.1 initAgg emptyDir rfl,
   failed_item_zero_contribution.2.1 [emptyDir],
   by decide,
   failed_item_zero_contribution.2.2 exAgg (by decide)⟩

/-- C5: a report line containing the substring `"match"` sets the `match`
metric to the float following the first `": "` on that line, and, under the
precondition that no line contains more than one of the four metric
substrings, parsing a complete four-line report yields each of the four
reference-based metrics from its own line.  `toFloat` stands for Python's
`float` builtin. -/
theorem parse_ref_based_lines :
    (∀ (toFloat : String → Option ℚ) (acc : RefBasedEval) (line s : String) (v : ℚ),
      containsSub "match" line = true → splitVal line = some s → toFloat s = some v →
      parseRefLine toFloat acc line = some { acc with matchScore := v }) ∧
    (∀ (toFloat : String → Option ℚ) (lineM lineT lineC lineP sM sT sC sP : String)
      (vM vT vC vP : ℚ),
      containsSub "match" lineM = true → containsSub "text" lineM = false →
      containsSub "color" lineM = false → containsSub "position" lineM = false →
      containsSub "match" lineT = false → containsSub "text" lineT = true →
      containsSub "color" lineT = false → containsSub "position" lineT = false →
      containsSub "match" lineC = false → containsSub "text" lineC = false →
      containsSub "color" lineC = true → containsSub "position" lineC = false →
      containsSub "match" lineP = false → containsSub "text" lineP = false →
      containsSub "color" lineP = false → containsSub "position" lineP = true →
      splitVal lineM = some sM → toFloat sM = some vM →
      splitVal lineT = some sT → toFloat sT = some vT →
      splitVal lineC = some sC → toFloat sC = some vC →
      splitVal lineP = some sP → toFloat sP = some vP →
      parseRefBased toFloat [lineM, lineT, lineC, lineP] = some ⟨vM, vT, vC, vP⟩) := by
  constructor
  · intro toFloat acc line s v h1 h2 h3
    simp [parseRefLine, h1, h2, h3]
  · intro toFloat lineM lineT lineC lineP sM sT sC sP vM vT vC vP
    intro hM1 hM2 hM3 hM4 hT1 hT2 hT3 hT4 hC1 hC2 hC3 hC4 hP1 hP2 hP3 hP4
    intro hsM hvM hsT hvT hsC hvC hsP hvP
    have e1 : parseRefLine toFloat ⟨0, 0, 0, 0⟩ lineM = some ⟨vM, 0, 0, 0⟩ := by
      simp [parseRefLine, hM1, hsM, hvM]
    have e2 : parseRefLine toFloat ⟨vM, 0, 0, 0⟩ lineT = some ⟨vM, vT, 0, 0⟩ := by
      simp [parseRefLine, hT1, hT2, hsT, hvT]
    have e3 : parseRefLine toFloat ⟨vM, vT, 0, 0⟩ lineC = some ⟨vM, vT, vC, 0⟩ := by
      simp [parseRefLine, hC1, hC2, hC3, hsC, hvC]
    have e4 : parseRefLine toFloat ⟨vM, vT, vC, 0⟩ lineP = some ⟨vM, vT, vC, vP⟩ := by
      simp [parseRefLine, hP1, hP2, hP3, hP4, hsP, hvP]
    simp [parseRefBased, List.foldlM, e1, e2, e3, e4]

/-- A concrete stand-in for Python's `float` on the strings the witness
report uses. -/
def toFloatEx : String → Option ℚ := fun s =>
  if s = "70" then some 70
  else if s = "60" then some 60
  else if s = "50" then some 50
  else if s = "40" then some 40
  else none

/-- Witness for C5 on the concrete report
`match: 70 / text: 60 / color: 50 / position: 40`. -/
theorem parse_ref_based_lines_witness :
    (containsSub "match" "match: 70" = true ∧ splitVal "match: 70" = some "70" ∧
      toFloatEx "70" = some 70 ∧
      parseRefLine toFloatEx ⟨1, 2, 3, 4⟩ "match: 70"
        = some { (⟨1, 2, 3, 4⟩ : RefBasedEval) with matchScore := 70 }) ∧
    parseRefBased toFloatEx ["match: 70", "text: 60", "color: 50", "position: 40"]
      = some ⟨70, 60, 50, 40⟩ := by
  refine ⟨⟨by decide, by decide, by decide, ?_⟩, ?_⟩
  · exact parse_ref_based_lines.1 toFloatEx ⟨1, 2, 3, 4⟩ "match: 70" "70" 70
      (by decide) (by decide) (by decide)
  · exact parse_ref_based_lines.2 toFloatEx
      "match: 70" "text: 60" "color: 50" "position: 40" "70" "60" "50" "40"
      70 60 50 40
      (by decide) (by decide) (by decide) (by decide)
      (by decide) (by decide) (by decide) (by decide)
      (by decide) (by decide) (by decide) (by decide)
      (by decide) (by decide) (by decide) (by decide)
      (by decide) (by decide) (by decide) (by decide)
      (by decide) (by decide) (by decide) (by decide)

/-- C6: the composite score of a complete round is the arithmetic mean of its
8 metric fields, the four reference-free raw scores each scaled by 20, and
when the reference-based metrics lie in `[0, 100]` and the raw
reference-free scores lie in `[0, 5]`, the composite score lies in
`[0, 100]`. -/
theorem composite_score_mean_bounds (re : RefBasedEval) (raw : RefFreeEval)
    (hm : 0 ≤ re.matchScore ∧ re.matchScore ≤ 100)
    (ht : 0 ≤ re.textScore ∧ re.textScore ≤ 100)
    (hc : 0 ≤ re.colorScore ∧ re.colorScore ≤ 100)
    (hp : 0 ≤ re.positionScore ∧ re.positionScore ≤ 100)
    (gt : 0 ≤ raw.text ∧ raw.text ≤ 5)
    (gi : 0 ≤ raw.image ∧ raw.image ≤ 5)
    (gl : 0 ≤ raw.layout ∧ raw.layout ≤ 5)
    (gc : 0 ≤ raw.color ∧ raw.color ≤ 5) :
    roundScore re (scaleRefFree raw)
      = (re.matchScore + re.textScore + re.colorScore + re.positionScore +
         raw.text * 20 + raw.image * 20 + raw.layout * 20 + raw.color * 20) / 8 ∧
    0 ≤ roundScore re (scaleRefFree raw) ∧ roundScore re (scaleRefFree raw) ≤ 100 := by
  refine ⟨rfl, ?_, ?_⟩
  · unfold roundScore scaleRefFree
    dsimp only
    have h8 : (0 : ℚ) < 8 := by norm_num
    rw [le_div_iff₀ h8]
    obtain ⟨hm1, _⟩ := hm; obtain ⟨ht1, _⟩ := ht
    obtain ⟨hc1, _⟩ := hc; obtain ⟨hp1, _⟩ := hp
    obtain ⟨gt1, _⟩ := gt; obtain ⟨gi1, _⟩ := gi
    obtain ⟨gl1, _⟩ := gl; obtain ⟨gc1, _⟩ := gc
    linarith
  · unfold roundScore scaleRefFree
    dsimp only
    have h8 : (0 : ℚ) < 8 := by norm_num
    rw [div_le_iff₀ h8]
    obtain ⟨_, hm2⟩ := hm; obtain ⟨_, ht2⟩ := ht
    obtain ⟨_, hc2⟩ := hc; obtain ⟨_, hp2⟩ := hp
    obtain ⟨_, gt2⟩ := gt; obtain ⟨_, gi2⟩ := gi
    obtain ⟨_, gl2⟩ := gl; obtain ⟨_, gc2⟩ := gc
    linarith

/-- Witness for C6 at the extreme point: all reference-based metrics 100 and
all raw reference-free scores 5. -/
theorem composite_score_mean_bounds_witness :
    ((0 : ℚ) ≤ 100 ∧ (100 : ℚ) ≤ 100) ∧ ((0 : ℚ) ≤ 5 ∧ (5 : ℚ) ≤ 5) ∧
    (roundScore ⟨100, 100, 100, 100⟩ (scaleRefFree ⟨5, 5, 5, 5⟩)
        = ((100 : ℚ) + 100 + 100 + 100 + 5 * 20 + 5 * 20 + 5 * 20 + 5 * 20) / 8 ∧
      0 ≤ roundScore ⟨100, 100, 100, 100⟩ (scaleRefFree ⟨5, 5, 5, 5⟩) ∧
      roundScore ⟨100, 100, 100, 100⟩ (scaleRefFree ⟨5, 5, 5, 5⟩) ≤ 100) :=
  ⟨⟨by decide, by decide⟩, ⟨by decide, by decide⟩,
   composite_score_mean_bounds ⟨100, 100, 100, 100⟩ ⟨5, 5, 5, 5⟩
     ⟨by decide, by decide⟩ ⟨by decide, by decide⟩ ⟨by decide, by decide⟩
     ⟨by decide, by decide⟩ ⟨by decide, by decide⟩ ⟨by decide, by decide⟩
     ⟨by decide, by decide⟩ ⟨by decide, by decide⟩⟩

/-- C7: every dispatched task's outcome is classified into exactly one of the
four cases — exit code zero within the 3600-second ceiling is Success,
exceeding the ceiling is Timeout, a non-zero exit is NonZeroExit with the
captured error text, and a host-side exception is Exception — and in every
case `run_autopresent_task` returns a result triple rather than
propagating. -/
theorem task_outcome_classification :
    (∀ (name : String) (ev : ProcEvent),
      run_autopresent_task name ev = outcomeTriple name (classifyOutcome ev)) ∧
    (∀ (ft : Nat) (code : Int) (err : String), ft ≤ TIMEOUT_SECONDS → code = 0 →
      classifyOutcome (runWithTimeout ft code err) = .success) ∧
    (∀ (ft : Nat) (code : Int) (err : String), ft ≤ TIMEOUT_SECONDS → code ≠ 0 →
      classifyOutcome (runWithTimeout ft code err) = .nonZeroExit err) ∧
    (∀ (ft : Nat) (code : Int) (err : String), TIMEOUT_SECONDS < ft →
      classifyOutcome (runWithTimeout ft code err) = .timeout) ∧
    (∀ e : String, classifyOutcome (.raised e) = .exception e) := by
  refine ⟨?_, ?_, ?_, ?_, ?_⟩
  · intro name ev
    cases ev with
    | completed code e =>
      cases code with
      | ofNat k => cases k <;> rfl
      | negSucc k => rfl
    | timedOut => rfl
    | raised e => rfl
  · intro ft code err h hc
    subst hc
    unfold runWithTimeout
    rw [if_neg (not_lt.mpr h)]
    rfl
  · intro ft code err h hc
    unfold runWithTimeout
    rw [if_neg (not_lt.mpr h)]
    cases code with
    | ofNat k =>
      cases k with
      | zero => exact absurd rfl hc
      | succ m => rfl
    | negSucc k => rfl
  · intro ft code err h
    unfold runWithTimeout
    rw [if_pos h]
    rfl
  · intro e
    rfl

/-- Witness for C7, exercising each branch at a concrete input. -/
theorem task_outcome_classification_witness :
    run_autopresent_task "t" (.completed 2 "boom")
      = outcomeTriple "t" (classifyOutcome (.completed 2 "boom")) ∧
    (10 ≤ TIMEOUT_SECONDS ∧ classifyOutcome (runWithTimeout 10 0 "") = .success) ∧
    (10 ≤ TIMEOUT_SECONDS ∧ (2 : Int) ≠ 0 ∧
      classifyOutcome (runWithTimeout 10 2 "boom") = .nonZeroExit "boom") ∧
    (TIMEOUT_SECONDS < 4000 ∧ classifyOutcome (runWithTimeout 4000 0 "") = .timeout) ∧
    classifyOutcome (.raised "oops") = .exception "oops" :=
  ⟨task_outcome_classification.1 "t" (.completed 2 "boom"),
   ⟨by decide, task_outcome_classification.2.1 10 0 "" (by decide) rfl⟩,
   ⟨by decide, by decide,
    task_outcome_classification.2.2.1 10 2 "boom" (by decide) (by decide)⟩,
   ⟨by decide, task_outcome_classification.2.2.2.1 4000 0 "" (by decide)⟩,
   task_outcome_classification.2.2.2.2 "oops"⟩

/-- C8: in both the parallel and the sequential execution mode the returned
success count plus failure count equals the number of dispatched tasks, each
task contributing to exactly one of the two counts. -/
theorem counts_partition_tasks :
    (∀ completions : List FutureResult,
      (run_tasks_parallel completions).successful_tasks
        + (run_tasks_parallel completions).failed_tasks = completions.length) ∧
    (∀ rs : List (String × Bool × String),
      (run_tasks_sequential rs).successful_tasks
        + (run_tasks_sequential rs).failed_tasks = rs.length) := by
  constructor
  · intro cs
    simpa [run_tasks_parallel] using counts_foldl cs ⟨0, 0, []⟩
  · intro rs
    have h : run_tasks_sequential rs = run_tasks_parallel (rs.map .value) := by
      unfold run_tasks_sequential run_tasks_parallel
      exact (List.foldl_map _ _ _ _).symm
    rw [h]
    simpa [run_tasks_parallel] using counts_foldl (rs.map .value) ⟨0, 0, []⟩

/-- C9: the directory resolved for a specific task id is named
`slides_<id>`, which does not follow the `slide_*` naming convention used
when enumerating items under a category (so the claimed convention equality
fails on the code). -/
theorem single_task_dir_convention_mismatch :
    matchesItemConvention "slide_1" = true ∧
    matchesItemConvention (singleTaskDirName "1") = false ∧
    singleTaskDirName "1" ≠ "slide_1" := by
  decide

/-- C10: with zero examined items the success-rate division of
`gather_results` raises `ZeroDivisionError` (the per-metric averaging is
guarded by `total_num > 0`, the success-rate division is not), while with at
least one item the finalization succeeds. -/
theorem gather_zero_items_division_error :
    (∀ st : AggState, st.total_num = 0 →
      gather_finalize st = .error "ZeroDivisionError") ∧
    (∀ st : AggState, 0 < st.total_num → ∃ out, gather_finalize st = .ok out) := by
  constructor
  · intro st h
    simp [gather_finalize, pyDiv, h]
  · intro st h
    have hne : ((st.total_num : ℚ)) ≠ 0 :=
      Nat.cast_ne_zero.mpr (Nat.pos_iff_ne_zero.mp h)
    unfold gather_finalize
    rw [show pyDiv ((st.total_num : ℚ) - (st.fail_num : ℚ)) (st.total_num : ℚ)
        = .ok (((st.total_num : ℚ) - (st.fail_num : ℚ)) / (st.total_num : ℚ)) from by
      unfold pyDiv
      rw [if_neg hne]]
    exact ⟨_, rfl⟩

/-- Witness for C10: the initial (empty) state errors, a two-item state does
not. -/
theorem gather_zero_items_division_error_witness :
    initAgg.total_num = 0 ∧
    gather_finalize initAgg = .error "ZeroDivisionError" ∧
    0 < exAgg.total_num ∧ (∃ out, gather_finalize exAgg = .ok out) :=
  ⟨rfl,
   gather_zero_items_division_error.1 initAgg rfl,
   by decide,
   gather_zero_items_division_error.2 exAgg (by decide)⟩

end AgenticVerifier

